import Mathlib

/-!
# Verification of the smart-sync storage synchronization engine

Shallow embedding of the off-chain storage synchronization engine
(`src/utils/transactionHandler.ts`, the `ChainProxy` coordinator of the same
file, and `storage/ProxyContract.sol`) together with proofs settling the
frozen claims about it.

Machine words and byte strings are modelled as `Nat` / `List Nat` (each byte
`< 256` where relevant); JavaScript objects are modelled as insertion-ordered
association lists; fallible RPC calls return `Except`/`Option`.
-/

set_option autoImplicit false
set_option maxRecDepth 8192

namespace SmartSync

/-! ## Byte-level helpers and RLP encoding of flat lists

The engine RLP-encodes a block header, which is a single flat RLP list of
byte strings (the `rlp` npm package applied to an array of hex strings).
We model hex strings directly as the byte lists they denote.
-/

/-- Minimal big-endian byte representation, `fuel`-bounded so that the kernel
can evaluate it.  `minBEAux fuel n` is the minimal big-endian form of `n`
whenever `n < 256 ^ fuel`; the chosen fuel of 64 covers all 512-bit values. -/
def minBEAux : Nat → Nat → List Nat
  | 0, _ => []
  | fuel + 1, n => if n = 0 then [] else minBEAux fuel (n / 256) ++ [n % 256]

/-- Minimal big-endian bytes of a `Nat`; zero maps to the empty byte string. -/
def minBE (n : Nat) : List Nat := minBEAux 64 n

/-- Byte content of `ethers.BigNumber.from(n).toHexString()`: minimal
big-endian hex padded to even length, which as bytes is the minimal
big-endian form except that zero becomes the single byte `0x00`. -/
def bigNumberHexBytes (n : Nat) : List Nat := if n = 0 then [0] else minBE n

/-- RLP length-prefixed payload: short form below 56 payload bytes, long form
with a length-of-length byte otherwise. -/
def rlpWithOffset (offsetShort offsetLong : Nat) (payload : List Nat) : List Nat :=
  if payload.length < 56 then (offsetShort + payload.length) :: payload
  else (offsetLong + (minBE payload.length).length) :: (minBE payload.length ++ payload)

/-- RLP encoding of a byte string: a single byte below `0x80` is its own
encoding, otherwise the `0x80`/`0xb7` offset forms apply. -/
def rlpStr (b : List Nat) : List Nat :=
  match b with
  | [x] => if x < 128 then [x] else rlpWithOffset 128 183 [x]
  | _ => rlpWithOffset 128 183 b

/-- RLP encoding of a list item given the already-encoded concatenation of
its elements (`0xc0`/`0xf7` offset forms). -/
def rlpList (payload : List Nat) : List Nat := rlpWithOffset 192 247 payload

/-! ## Block-header codec (`encodeBlockHeader`) -/

/-- A block header as returned by `eth_getBlockByNumber`.  Hash-valued and
blob-valued fields are byte strings; integer-valued fields are numbers
(`ethers.BigNumber.from` is applied to them in the source).  `mixHash` and
`nonce` are absent (`none`) on PoA chains. -/
structure BlockHeader where
  parentHash : List Nat
  sha3Uncles : List Nat
  miner : List Nat
  stateRoot : List Nat
  transactionsRoot : List Nat
  receiptsRoot : List Nat
  logsBloom : List Nat
  difficulty : Nat
  number : Nat
  gasLimit : Nat
  gasUsed : Nat
  timestamp : Nat
  extraData : List Nat
  mixHash : Option (List Nat)
  nonce : Option (List Nat)

/-- `encodeBlockHeader` from `transactionHandler.ts`: the 13 mandatory fields
in source order, integer fields passed through
`ethers.BigNumber.from(...).toHexString()`, with `mixHash` and `nonce`
appended as fields 14 and 15 when both are present (PoW), omitted otherwise
(PoA); the array is then RLP-encoded. -/
def encodeBlockHeader (h : BlockHeader) : List Nat :=
  rlpList (
    rlpStr h.parentHash ++
    rlpStr h.sha3Uncles ++
    rlpStr h.miner ++
    rlpStr h.stateRoot ++
    rlpStr h.transactionsRoot ++
    rlpStr h.receiptsRoot ++
    rlpStr h.logsBloom ++
    rlpStr (bigNumberHexBytes h.difficulty) ++
    rlpStr (bigNumberHexBytes h.number) ++
    rlpStr (bigNumberHexBytes h.gasLimit) ++
    rlpStr (bigNumberHexBytes h.gasUsed) ++
    rlpStr (bigNumberHexBytes h.timestamp) ++
    rlpStr h.extraData ++
    (match h.mixHash, h.nonce with
     | some m, some nn => rlpStr m ++ rlpStr nn
     | _, _ => []))

/-- Modelled from the spec: the canonical RLP encoding of a block header,
whose Keccak-256 hash is the block hash reported by the node.  Field order
and the PoW/PoA variants are as in §4.G; integer fields are normalized to
minimal big-endian form with leading zeros stripped (so zero is the empty
byte string). -/
def canonicalHeaderRLP (h : BlockHeader) : List Nat :=
  rlpList (
    rlpStr h.parentHash ++
    rlpStr h.sha3Uncles ++
    rlpStr h.miner ++
    rlpStr h.stateRoot ++
    rlpStr h.transactionsRoot ++
    rlpStr h.receiptsRoot ++
    rlpStr h.logsBloom ++
    rlpStr (minBE h.difficulty) ++
    rlpStr (minBE h.number) ++
    rlpStr (minBE h.gasLimit) ++
    rlpStr (minBE h.gasUsed) ++
    rlpStr (minBE h.timestamp) ++
    rlpStr h.extraData ++
    (match h.mixHash, h.nonce with
     | some m, some nn => rlpStr m ++ rlpStr nn
     | _, _ => []))

/-! ## JavaScript value helpers

JS objects used as maps are insertion-ordered association lists: assigning to
an existing property overwrites its value in place, assigning to a fresh
property appends it. -/

/-- `obj[k] = v` on a JS object modelled as an association list. -/
def objInsert (m : List (String × String)) (k v : String) : List (String × String) :=
  if m.any (fun p => p.1 == k) then m.map (fun p => if p.1 == k then (k, v) else p)
  else m ++ [(k, v)]

/-- Does a JS object have the property `k`? -/
def hasKey (m : List (String × String)) (k : String) : Bool :=
  m.any (fun p => p.1 == k)

/-- `m[k]` on a JS object: value of the property, if present. -/
def lookupKey (m : List (String × String)) (k : String) : Option String :=
  (m.find? (fun p => p.1 == k)).map (fun p => p.2)

/-- `String.prototype.toUpperCase()` (mapping over the character list keeps
the definition kernel-computable). -/
def upperStr (s : String) : String := String.mk (s.toList.map Char.toUpper)

/-- `String.prototype.toLowerCase()`. -/
def lowerStr (s : String) : String := String.mk (s.toList.map Char.toLower)

/-- Does `s` contain `pat` as a contiguous substring? -/
def hasSubstr (pat : List Char) : List Char → Bool
  | [] => pat.isEmpty
  | c :: rest => pat.isPrefixOf (c :: rest) || hasSubstr pat rest

/-- The literal pattern of the regex `/0x0{64}/`: `"0x"` followed by 64
zero characters. -/
def zeroKeyPattern : List Char := '0' :: 'x' :: List.replicate 64 '0'

/-- `key.match(/0x0{64}/)` produces a match: the key contains `"0x"`
followed by 64 `'0'` characters. -/
def matchesZeroRegex (k : String) : Bool := hasSubstr zeroKeyPattern k.toList

/-! ## `TransactionHandler` (`src/utils/transactionHandler.ts`)

RPC responses are provided by a `SrcChainEnv` oracle; an `Except.error`
models a rejected RPC promise. -/

/-- A `Block` as used by `getTransactions`: its transaction hash list. -/
structure BlockData where
  transactions : List String

/-- A `TransactionResponse` as used by `getTransactions`.  `toAddress` models
the `to` field (`to` is reserved in Lean): `none` for a contract-creating
transaction. -/
structure TxData where
  hash : String
  toAddress : Option String

/-- A `TransactionReceipt` as used by `getTransactions`. -/
structure ReceiptData where
  transactionHash : String
  contractAddress : Option String

/-- The `KeyObject` type of `transactionHandler.ts`: a storage entry of a
parity `stateDiff` is `{*: {from, to}}` (field `star`, holding the `to`
value) or `{+: value}` (field `plus`), or neither. -/
structure KeyObject where
  star : Option String
  plus : Option String

/-- `ParityResponseData`: `stateDiff` maps a contract address to the
`storage` object of that contract (an insertion-ordered map from storage key
to `KeyObject`). -/
structure ParityResponseData where
  stateDiff : List (String × List (String × KeyObject))

/-- The source-chain RPC surface consumed by `TransactionHandler`.  Each
method may fail (`Except.error` = rejected promise); `getBlock` may also
resolve to `null` (`none`), which `getTransactions` filters out. -/
structure SrcChainEnv where
  getBlock : Nat → Except String (Option BlockData)
  getTransaction : String → Except String TxData
  getTransactionReceipt : String → Except String ReceiptData
  traceReplayTransaction : String → Except String ParityResponseData

/-- Parity `stateDiff` lookup for a contract address (a JS property read). -/
def lookupStateDiff (m : List (String × List (String × KeyObject))) (k : String) :
    Option (List (String × KeyObject)) :=
  (m.find? (fun p => p.1 == k)).map (fun p => p.2)

/-- `TransactionHandler.replayTransaction`: calls `trace_replayTransaction`
(a thrown RPC error is caught, logged and mapped to `undefined`); when the
`stateDiff` has an entry for the lowercased contract address, folds its
`storage` object into a fresh object taking `keyObject['*'].to` for
modifications and `keyObject['+']` for creations, skipping entries with
neither. -/
def replayTransaction (env : SrcChainEnv) (contractAddress : String) (t : String) :
    Option (List (String × String)) :=
  match env.traceReplayTransaction t with
  | .error _ => none
  | .ok response =>
    match lookupStateDiff response.stateDiff (lowerStr contractAddress) with
    | none => none
    | some txStorage =>
      some (txStorage.foldl (fun obj kv =>
        match kv.2.star with
        | some toVal => objInsert obj kv.1 toVal
        | none =>
          match kv.2.plus with
          | some v => objInsert obj kv.1 v
          | none => obj) [])

/-- The replay fan-out loop of `getContractStorageFromTxs`, operating on the
transaction list already reversed (the source pops `txs` from the end).
`proms` is `txStoragePromises`, `acc` is `txStorages`.  Faithful to the
source: when the promise buffer reaches the batch size it is awaited and
concatenated onto `acc`, but it is never cleared, and there is no final
await after the loop. -/
def replayLoopAux (replay : String → Option (List (String × String))) (batch : Nat) :
    List String → List (Option (List (String × String))) →
    List (Option (List (String × String))) → List (Option (List (String × String)))
  | [], _, acc => acc
  | t :: rest, proms, acc =>
    if t = "" then replayLoopAux replay batch rest proms acc
    else
      let proms2 := proms ++ [replay t]
      if batch ≤ proms2.length then replayLoopAux replay batch rest proms2 (acc ++ proms2)
      else replayLoopAux replay batch rest proms2 acc

/-- One step of the final merge of `getContractStorageFromTxs`: fold a single
transaction's replayed storage into the accumulated `contractStorage`,
skipping any key that matches `/0x0{64}/`. -/
def applyTxStorage (acc : List (String × String)) (storage : List (String × String)) :
    List (String × String) :=
  storage.foldl (fun acc2 kv =>
    if matchesZeroRegex kv.1 then acc2 else objInsert acc2 kv.1 kv.2) acc

/-- The final merge of `getContractStorageFromTxs`: `txStorages.forEach`,
skipping `undefined` entries. -/
def mergeTxStorages (stores : List (Option (List (String × String)))) :
    List (String × String) :=
  stores.foldl (fun acc st =>
    match st with
    | none => acc
    | some storage => applyTxStorage acc storage) []

/-- `TransactionHandler.getContractStorageFromTxs`, given the related
transaction list (the result of `getTransactions`) and the per-transaction
replay function: run the replay fan-out loop (popping transactions from the
end) and merge the collected storages. -/
def getContractStorageFromTxs (replay : String → Option (List (String × String)))
    (batch : Nat) (txs : List String) : List (String × String) :=
  mergeTxStorages (replayLoopAux replay batch txs.reverse [] [])

/-- Fan-out of an RPC call over a list of inputs, joined in issue order.
Batching in the source bounds concurrency only; the first rejected promise
aborts the whole operation (`process.exit(-1)` on a batched promise, an
unhandled rejection on the final partial batch), which the embedding models
as the `Except` error. -/
def mapME {α β : Type} (f : α → Except String β) : List α → Except String (List β)
  | [] => .ok []
  | a :: as =>
    match f a with
    | .error e => .error e
    | .ok b =>
      match mapME f as with
      | .error e => .error e
      | .ok bs => .ok (b :: bs)

/-- The block-fetch fan-out of `getTransactions` over blocks `earliest` to
`latest` inclusive. -/
def collectBlocks (env : SrcChainEnv) (earliest latest : Nat) :
    Except String (List (Option BlockData)) :=
  mapME env.getBlock (List.range' earliest (latest + 1 - earliest))

/-- The transaction-fetch fan-out of `getTransactions`; any rejected promise
aborts the operation (`process.exit(-1)`). -/
def collectTxs (env : SrcChainEnv) (hashes : List String) : Except String (List TxData) :=
  mapME env.getTransaction hashes

/-- The receipt-fetch fan-out of `getTransactions`; any rejected promise
aborts the operation. -/
def collectReceipts (env : SrcChainEnv) (hashes : List String) :
    Except String (List ReceiptData) :=
  mapME env.getTransactionReceipt hashes

/-- `TransactionHandler.getTransactions` with the block range already
resolved to numbers (`toBlockNumber` / `findDeploymentBlock` live in
`utils/utils.ts`): empty result when `latest < earliest`; otherwise fetch
the blocks, drop `null` blocks, fetch every transaction (popping hashes from
the end), record hashes of transactions whose `to` equals the uppercased
contract address, fetch receipts of the to-less transactions (popping from
the end) and append those whose `contractAddress` matches. -/
def getTransactionsE (env : SrcChainEnv) (contractAddr : String) (latest earliest : Nat) :
    Except String (List String) :=
  let contractAddress := upperStr contractAddr
  if latest < earliest then .ok []
  else do
    let blocksRaw ← collectBlocks env earliest latest
    let blocks := blocksRaw.filterMap id
    let transactionHashes := blocks.foldl (fun acc b => acc ++ b.transactions) []
    let transactions ← collectTxs env transactionHashes.reverse
    let relatedTransactions := transactions.foldl (fun acc tx =>
      match tx.toAddress with
      | some toAddr => if upperStr toAddr = contractAddress then acc ++ [tx.hash] else acc
      | none => acc) []
    let receiptHashes := transactions.foldl (fun acc tx =>
      match tx.toAddress with
      | some _ => acc
      | none => acc ++ [tx.hash]) []
    let receipts ← collectReceipts env receiptHashes.reverse
    let related := receipts.foldl (fun acc r =>
      match r.contractAddress with
      | some ca => if upperStr ca = contractAddress then acc ++ [r.transactionHash] else acc
      | none => acc) relatedTransactions
    .ok related

/-- The full `getContractStorageFromTxs` pipeline: gather the related
transactions (any block / transaction / receipt RPC failure aborts), then
replay them; a failed `trace_replayTransaction` cannot abort because
`replayTransaction` maps it to `undefined`. -/
def getContractStorageFromTxsE (env : SrcChainEnv) (contractAddress : String)
    (batch : Nat) (latest earliest : Nat) : Except String (List (String × String)) := do
  let txs ← getTransactionsE env contractAddress latest earliest
  .ok (getContractStorageFromTxs (replayTransaction env contractAddress) batch txs)

/-! ## `ChainProxy` (coordinator in `transactionHandler.ts`) -/

/-- A JS block-tag value as it reaches the engine: absent (`undefined`), a
number, or a string tag. -/
inductive JsBlockTag where
  | undef : JsBlockTag
  | num : Nat → JsBlockTag
  | str : String → JsBlockTag
deriving DecidableEq

/-- JS truthiness of a block-tag value: `undefined` and the number `0` and
the empty string are falsy. -/
def JsBlockTag.truthy : JsBlockTag → Bool
  | .undef => false
  | .num n => n != 0
  | .str s => s != ""

/-- Modelled from the spec: `toBlockNumber` (in `utils/utils.ts`, not under
`src/`) resolves a block tag — a block number or one of the sentinels
`latest` / `earliest` / `pending` — to a block number against the provider's
chain head. -/
def toBlockNumber (latestBlock : Nat) : JsBlockTag → Nat
  | .undef => latestBlock
  | .num n => n
  | .str s =>
    if s = "latest" ∨ s = "pending" then latestBlock
    else if s = "earliest" then 0
    else (s.toNat?).getD 0

/-- `ethers.BigNumber.from` on a block-tag value: numbers convert directly,
numeric strings parse, anything else throws (`none`). -/
def bigNumberFrom : JsBlockTag → Option Nat
  | .undef => none
  | .num n => some n
  | .str s => s.toNat?

/-- A block tag for `eth_getCode`: ethers' `provider.getCode(address)`
defaults the tag to `latest` when none is passed. -/
inductive CodeBlockTag where
  | latest : CodeBlockTag
  | number : Nat → CodeBlockTag
deriving DecidableEq

/-- Environment of `migrateSrcContract`: the `eth_getCode` oracle of the
source provider (as a hex string, `"0x"` for no code), and the combined
outcome of the remaining migration steps (relay deployment, key enumeration,
proof fetch, `addBlock`, logic and proxy deployment, initial storage
migration), each of which is a further RPC/transaction interaction. -/
structure MigrateEnv where
  getCode : CodeBlockTag → String
  restOk : Bool

/-- The guard prefix of `ChainProxy.migrateSrcContract(srcBlock)` followed by
the abstracted remaining steps: fails when uninitialized, when the source
address is invalid, and when `(await srcProvider.getCode(srcContractAddress)).length < 3`
— note the source passes no block tag to `getCode`, so the check runs at the
provider default `latest`, and `srcBlock` is not consulted by the check. -/
def migrateSrcContract (initialized validSrcAddress : Bool) (env : MigrateEnv)
    (srcBlock : JsBlockTag) : Bool :=
  if !initialized then false
  else if !validSrcAddress then false
  else if (env.getCode CodeBlockTag.latest).length < 3 then false
  else env.restOk

/-- `KEY_VALUE_PAIR_PER_BATCH` from `transactionHandler.ts`. -/
def KEY_VALUE_PAIR_PER_BATCH : Nat := 100

/-- The chunking loop of `ChainProxy.initialStorageMigration`:
`while (proxyKeys.length > 0)` splice off the first
`KEY_VALUE_PAIR_PER_BATCH` keys and values into one `addStorage`
transaction. -/
def initialStorageMigrationBatches : List String → List String →
    List (List String × List String)
  | [], _ => []
  | k :: ks, vs =>
    ((k :: ks).take KEY_VALUE_PAIR_PER_BATCH, vs.take KEY_VALUE_PAIR_PER_BATCH) ::
      initialStorageMigrationBatches ((k :: ks).drop KEY_VALUE_PAIR_PER_BATCH)
        (vs.drop KEY_VALUE_PAIR_PER_BATCH)
  termination_by ks _ => ks.length
  decreasing_by
    simp [KEY_VALUE_PAIR_PER_BATCH, List.length_drop]
    omega

/-- The observable RPC interactions of `migrateChangesToProxy` past its
guards. -/
inductive SyncEffect where
  | getBlockByNumber : SyncEffect
  | getProofFetch : SyncEffect
  | addBlock : SyncEffect
  | updateStorageTx : SyncEffect
deriving DecidableEq

/-- `ChainProxy.migrateChangesToProxy(changedKeys, targetBlock)` as result
plus emitted RPC interactions: fails when uninitialized, fails when the
migration state is unset, succeeds immediately with no RPC traffic when
`changedKeys.length < 1`, fails when no relay contract is attached;
otherwise fetches the source block and proof, registers the block on the
relay and sends the `updateStorage` transaction, whose thrown failure is
caught and turned into `false`. -/
def migrateChangesToProxy (initialized migrationState hasRelay : Bool)
    (changedKeys : List Nat) (targetBlock : JsBlockTag) (updateStorageOk : Bool) :
    Bool × List SyncEffect :=
  if !initialized then (false, [])
  else if !migrationState then (false, [])
  else if changedKeys.length < 1 then (true, [])
  else if !hasRelay then (false, [])
  else
    ((if updateStorageOk then true else false),
      [SyncEffect.getBlockByNumber, SyncEffect.getProofFetch, SyncEffect.addBlock,
        SyncEffect.updateStorageTx])

/-- The three diff strategies of `ChainProxy.getDiff`. -/
inductive GetDiffMethod where
  | storage : GetDiffMethod
  | getProofM : GetDiffMethod
  | srcTx : GetDiffMethod
deriving DecidableEq

/-- Environment of `getDiff`.  `latestBlock` backs tag resolution;
`synched` is `relayContract.getCurrentBlockNumber(proxy)`.  The three differ
methods live in `DiffHandler` (not under `src/`); they are kept abstract
here, taking the `targetBlock` parameter and the `srcBlock` variable the
source passes them. -/
structure DiffEnv where
  latestBlock : Nat
  synched : Nat
  diffFromStorage : JsBlockTag → JsBlockTag → List Nat
  diffFromProof : JsBlockTag → JsBlockTag → List Nat
  diffFromSrcTx : JsBlockTag → JsBlockTag → List Nat

/-- `ChainProxy.getDiff(method, parameters)`, returning `none` for the
`undefined` result (and for a thrown `BigNumber.from` conversion, which also
yields no diff).  When a relay and proxy are attached, `srcBlock` is
rewritten to the synchronized block number plus one; when the `targetBlock`
parameter is truthy and `BigNumber.from(srcBlock)` exceeds the resolved
target block number, the empty diff is returned without consulting the
differ. -/
def getDiff (initialized hasRelayAndProxy hasProxyAddress migrationState : Bool)
    (env : DiffEnv) (method : GetDiffMethod)
    (srcBlockParam targetBlockParam : JsBlockTag) : Option (List Nat) :=
  if !initialized then none
  else
    match method with
    | .storage =>
      if !hasProxyAddress then none
      else if !migrationState then none
      else some (env.diffFromStorage srcBlockParam targetBlockParam)
    | .getProofM =>
      let srcBlock : JsBlockTag :=
        if hasRelayAndProxy then .num (env.synched + 1) else srcBlockParam
      if targetBlockParam.truthy then
        let givenTargetBlockNr := toBlockNumber env.latestBlock targetBlockParam
        match bigNumberFrom srcBlock with
        | none => none
        | some sb =>
          if givenTargetBlockNr < sb then some []
          else some (env.diffFromProof targetBlockParam srcBlock)
      else some (env.diffFromProof targetBlockParam srcBlock)
    | .srcTx =>
      let srcBlock : JsBlockTag :=
        if hasRelayAndProxy then .num (env.synched + 1) else srcBlockParam
      if targetBlockParam.truthy then
        let givenTargetBlockNr := toBlockNumber env.latestBlock targetBlockParam
        match bigNumberFrom srcBlock with
        | none => none
        | some sb =>
          if givenTargetBlockNr < sb then some []
          else some (env.diffFromSrcTx targetBlockParam srcBlock)
      else some (env.diffFromSrcTx targetBlockParam srcBlock)

/-- The engine state read by the block-number getters: the `initialized`
flag, whether a relay / proxy contract object is attached, and the cached
`srcBlock`. -/
structure EngineState where
  initialized : Bool
  hasRelay : Bool
  hasProxy : Bool
  srcBlock : JsBlockTag

/-- `ChainProxy.getLatestBlockNumber`: `BigNumber.from(-1)` when the engine
is uninitialized or no relay contract is attached, otherwise the relay's
latest block number. -/
def getLatestBlockNumber (s : EngineState) (relayLatest : Nat) : Int :=
  if !s.initialized then -1
  else if !s.hasRelay then -1
  else (relayLatest : Int)

/-- `ChainProxy.getCurrentBlockNumber`: `BigNumber.from(-1)` (and an
untouched engine state) when uninitialized or relay-less; otherwise reads
`relayContract.getCurrentBlockNumber(proxyContract.address)` — a `TypeError`
(`none`) when no proxy object is attached — and rewrites the cached
`srcBlock` to the reported number. -/
def getCurrentBlockNumber (s : EngineState) (relayCurrent : Nat) :
    Option (Int × EngineState) :=
  if !s.initialized then some (-1, s)
  else if !s.hasRelay then some (-1, s)
  else if !s.hasProxy then none
  else some ((relayCurrent : Int), { s with srcBlock := .num relayCurrent })

/-! ## `ProxyContract.sol`

The proxy's storage is the EVM storage map `Nat → Nat` (bytes32 slots and
words as numbers).  `RelayContract`, `GetProofLib` and `MerklePatriciaProof`
are imported contracts whose sources are not under `src/`; they are modelled
from the spec as an abstract environment of parsers and Merkle-Patricia
verifiers. -/

namespace ProxyContract

/-- A parsed storage proof entry (`GetProofLib.StorageProof`): `[key, value,
nodes]` with `value` the RLP-encoded slot value and `proof` the trie
nodes. -/
structure StorageProofData where
  key : Nat
  value : List Nat
  proof : List Nat

/-- A parsed EIP-1186 proof (`GetProofLib.GetProof`): the RLP payload
`[account, accountProof, storageProofs]`. -/
structure GetProofData where
  account : List Nat
  accountProof : List Nat
  storageProofs : List StorageProofData

/-- Modelled from the spec: the relay contract and the proof library
(`RelayContract`, `GetProofLib`, `MerklePatriciaProof`, absent from `src/`).
`getStateRoot` is the relay's attested state root per block; `verifyProof`
checks an account proof against a state root; `verifyStorageProof` is
`MerklePatriciaProof.verify(value, path, proof, storageHash)`;
`storageHashOf` extracts `parseAccount(account).storageHash`; `rlpToUint`
decodes an RLP value to a word. -/
structure ProxyEnv where
  getStateRoot : Nat → Nat
  source : Nat
  encodedAddress : Nat → List Nat
  verifyProof : List Nat → List Nat → List Nat → Nat → Bool
  storageHashOf : List Nat → Nat
  triePath : Nat → List Nat
  verifyStorageProof : List Nat → List Nat → List Nat → Nat → Bool
  rlpToUint : List Nat → Nat

/-- EVM `sstore` on the storage map. -/
def sstore (st : Nat → Nat) (slot value : Nat) : Nat → Nat :=
  fun s => if s = slot then value else st s

/-- `ProxyContract.setStorage`: iterate the storage proofs; for each, require
that the Merkle-Patricia proof of the value at the key's trie path verifies
against `storageHash`, then store the decoded value at the slot.  A failed
`require` reverts the transaction (`none`): the caller's state is
unchanged, including the slots already written by earlier iterations. -/
def setStorage (env : ProxyEnv) (storageHash : Nat) :
    List StorageProofData → (Nat → Nat) → Option (Nat → Nat)
  | [], st => some st
  | p :: rest, st =>
    if env.verifyStorageProof p.value (env.triePath p.key) p.proof storageHash then
      setStorage env storageHash rest (sstore st p.key (env.rlpToUint p.value))
    else none

/-- `ProxyContract.updateStorage(proof, blockHash)`: look up the relay-stored
state root for `blockHash`, require the account proof to verify against it
along the source address' trie path, then run `setStorage` against the
account's `storageHash` and finally record the block on the relay
(`setCurrentStateBlock`).  `none` is a revert: no slot is written. -/
def updateStorage (env : ProxyEnv) (st : Nat → Nat) (getProof : GetProofData)
    (blockHash : Nat) : Option ((Nat → Nat) × Nat) :=
  let root := env.getStateRoot blockHash
  let path := env.encodedAddress env.source
  if env.verifyProof getProof.account getProof.accountProof path root then
    match setStorage env (env.storageHashOf getProof.account) getProof.storageProofs st with
    | some st2 => some (st2, blockHash)
    | none => none
  else none

end ProxyContract

/-! ## Concrete instances used by counterexamples and witnesses -/

/-- A PoA header of an empty block: `gasUsed = 0`, every other field
realistic. -/
def hdrZeroGas : BlockHeader :=
  { parentHash := List.replicate 32 17
    sha3Uncles := List.replicate 32 34
    miner := List.replicate 20 51
    stateRoot := List.replicate 32 68
    transactionsRoot := List.replicate 32 85
    receiptsRoot := List.replicate 32 102
    logsBloom := List.replicate 256 0
    difficulty := 2
    number := 1000
    gasLimit := 8000000
    gasUsed := 0
    timestamp := 1700000000
    extraData := [1, 2, 3]
    mixHash := none
    nonce := none }

/-- A PoW header with every integer field positive. -/
def hdrPos : BlockHeader :=
  { parentHash := List.replicate 32 17
    sha3Uncles := List.replicate 32 34
    miner := List.replicate 20 51
    stateRoot := List.replicate 32 68
    transactionsRoot := List.replicate 32 85
    receiptsRoot := List.replicate 32 102
    logsBloom := List.replicate 256 0
    difficulty := 1000000
    number := 1000
    gasLimit := 8000000
    gasUsed := 21000
    timestamp := 1700000000
    extraData := [1, 2, 3]
    mixHash := some (List.replicate 32 119)
    nonce := some (List.replicate 8 136) }

/-- Replay oracle for one transaction `"t1"` whose `stateDiff` sets slot
`0x…01` to `0x…02`. -/
def replayOne : String → Option (List (String × String)) :=
  fun t =>
    if t = "t1" then
      some [("0x0000000000000000000000000000000000000000000000000000000000000001",
             "0x0000000000000000000000000000000000000000000000000000000000000002")]
    else none

/-- Replay oracle for one transaction whose `stateDiff` touches only the
all-zero slot key `0x0…0`, setting it to a nonzero value. -/
def replayZeroSlot : String → Option (List (String × String)) :=
  fun _ =>
    some [("0x0000000000000000000000000000000000000000000000000000000000000000",
           "0x0000000000000000000000000000000000000000000000000000000000000005")]

/-- Source-chain oracle: block 1 holds the single transaction `"t1"` sent to
the contract `0xab`, and `trace_replayTransaction` fails for it. -/
def envReplayFail : SrcChainEnv :=
  { getBlock := fun n => if n = 1 then .ok (some ⟨["t1"]⟩) else .ok none
    getTransaction := fun h => if h = "t1" then .ok ⟨"t1", some "0xab"⟩ else .error "no such tx"
    getTransactionReceipt := fun _ => .error "no receipt"
    traceReplayTransaction := fun _ => .error "rpc failure" }

/-- Source-chain oracle whose block fetch fails at block 1. -/
def envBlockFail : SrcChainEnv :=
  { getBlock := fun _ => .error "getBlock boom"
    getTransaction := fun _ => .error "no such tx"
    getTransactionReceipt := fun _ => .error "no receipt"
    traceReplayTransaction := fun _ => .error "rpc failure" }

/-- Migration environment in which the source address carries code at
`latest` but no code at block 5 (the contract was deployed after block 5):
`eth_getCode` returns `"0x"` there. -/
def migEnvLateCode : MigrateEnv :=
  { getCode := fun tag =>
      match tag with
      | .latest => "0x6001600155"
      | .number _ => "0x"
    restOk := true }

/-- Migration environment in which the source address carries no code at
any block. -/
def migEnvNoCode : MigrateEnv :=
  { getCode := fun _ => "0x", restOk := true }

/-- Diff environment: chain head 100, synchronized block 5, all differ
strategies returning the empty diff whenever consulted with a source block
beyond the target (degenerate instance of the spec property). -/
def diffEnvEmpty : DiffEnv :=
  { latestBlock := 100
    synched := 5
    diffFromStorage := fun _ _ => []
    diffFromProof := fun _ _ => []
    diffFromSrcTx := fun _ _ => [] }

/-- Engine state before `init()` succeeded. -/
def engineUninit : EngineState :=
  { initialized := false, hasRelay := true, hasProxy := true, srcBlock := .str "latest" }

/-- Initialized engine state with no relay contract attached. -/
def engineNoRelay : EngineState :=
  { initialized := true, hasRelay := false, hasProxy := true, srcBlock := .num 7 }

/-- Proxy-contract environment whose verifiers accept everything, with the
decoded value of an RLP-encoded word being the word itself for the bytes
used in the witness. -/
def proxyEnvAccept : ProxyContract.ProxyEnv :=
  { getStateRoot := fun _ => 99
    source := 1234
    encodedAddress := fun a => [a % 256]
    verifyProof := fun _ _ _ _ => true
    storageHashOf := fun _ => 42
    triePath := fun k => [k % 256]
    verifyStorageProof := fun _ _ _ _ => true
    rlpToUint := fun v => v.headD 0 }

/-- Proxy-contract environment that rejects every storage proof. -/
def proxyEnvRejectStorage : ProxyContract.ProxyEnv :=
  { proxyEnvAccept with verifyStorageProof := fun _ _ _ _ => false }

/-- A one-entry proof payload: slot 1 receives value 5. -/
def getProofOneSlot : ProxyContract.GetProofData :=
  { account := [7], accountProof := [8], storageProofs := [{ key := 1, value := [5], proof := [9] }] }

/-! ## C3: block-header codec -/

/-- A nonzero number's `BigNumber.toHexString` bytes are its minimal
big-endian form. -/
theorem bigNumberHexBytes_of_ne_zero {n : Nat} (h : n ≠ 0) :
    bigNumberHexBytes n = minBE n := by
  simp [bigNumberHexBytes, h]

/-- C3, counterexample: for the empty-block header `hdrZeroGas`
(`gasUsed = 0`), `encodeBlockHeader` differs from the canonical header RLP,
so its Keccak-256 hash is not the canonical block hash: the zero integer
field is encoded as the byte `0x00` instead of the empty string. -/
theorem c3_encodeBlockHeader_zero_field_not_canonical :
    encodeBlockHeader hdrZeroGas ≠ canonicalHeaderRLP hdrZeroGas := by
  decide

/-- C3, amended: the 13 mandatory fields are RLP-encoded in the specified
order, with `mixHash` and `nonce` appended as fields 14 and 15 exactly when
both are present (PoW) and omitted otherwise (PoA); integer fields are
minimal big-endian provided they are nonzero (zero is encoded as a single
`0x00` byte), so for headers whose integer fields are all positive the
output is the canonical header RLP, whose Keccak-256 hash is the canonical
block hash. -/
theorem c3_encodeBlockHeader_canonical_of_pos_fields (h : BlockHeader)
    (hdiff : h.difficulty ≠ 0) (hnum : h.number ≠ 0) (hlim : h.gasLimit ≠ 0)
    (hused : h.gasUsed ≠ 0) (hts : h.timestamp ≠ 0) :
    encodeBlockHeader h = canonicalHeaderRLP h := by
  unfold encodeBlockHeader canonicalHeaderRLP
  rw [bigNumberHexBytes_of_ne_zero hdiff, bigNumberHexBytes_of_ne_zero hnum,
    bigNumberHexBytes_of_ne_zero hlim, bigNumberHexBytes_of_ne_zero hused,
    bigNumberHexBytes_of_ne_zero hts]

/-- C3, witness: the amended theorem applied to the concrete PoW header
`hdrPos`. -/
theorem c3_encodeBlockHeader_canonical_witness :
    encodeBlockHeader hdrPos = canonicalHeaderRLP hdrPos :=
  c3_encodeBlockHeader_canonical_of_pos_fields hdrPos (by decide) (by decide)
    (by decide) (by decide) (by decide)

/-! ## JS-object helper lemmas -/

/-- A JS object has key `k` iff some entry `(k, v)` is in the list. -/
theorem hasKey_iff {m : List (String × String)} {k : String} :
    hasKey m k = true ↔ ∃ v, (k, v) ∈ m := by
  simp only [hasKey, List.any_eq_true, beq_iff_eq]
  constructor
  · rintro ⟨p, hp, rfl⟩
    exact ⟨p.2, hp⟩
  · rintro ⟨v, hv⟩
    exact ⟨(k, v), hv, rfl⟩

/-- Assigning `m[k] = v` makes `k` a key of the object. -/
theorem hasKey_objInsert_self (m : List (String × String)) (k v : String) :
    hasKey (objInsert m k v) k = true := by
  rw [hasKey_iff]
  unfold objInsert
  by_cases h : m.any (fun p => p.1 == k)
  · simp only [h, if_true]
    rcases List.any_eq_true.mp h with ⟨p, hp, hpk⟩
    refine ⟨v, List.mem_map.mpr ⟨p, hp, ?_⟩⟩
    simp [hpk]
  · simp only [h, if_false]
    exact ⟨v, List.mem_append.mpr (Or.inr (List.mem_singleton.mpr rfl))⟩

/-- Assigning to any key preserves existing keys of the object. -/
theorem hasKey_objInsert_mono (m : List (String × String)) (k' v k : String)
    (h : hasKey m k = true) : hasKey (objInsert m k' v) k = true := by
  rw [hasKey_iff] at h ⊢
  rcases h with ⟨v0, hv0⟩
  unfold objInsert
  by_cases hany : m.any (fun p => p.1 == k')
  · simp only [hany, if_true]
    by_cases hkk : k = k'
    · subst hkk
      refine ⟨v, List.mem_map.mpr ⟨(k, v0), hv0, ?_⟩⟩
      simp
    · refine ⟨v0, List.mem_map.mpr ⟨(k, v0), hv0, ?_⟩⟩
      have : ((k, v0).1 == k') = false := by
        simp [beq_eq_false_iff_ne]
        exact hkk
      simp [this]
  · simp only [hany, if_false]
    exact ⟨v0, List.mem_append.mpr (Or.inl hv0)⟩

/-- The merge step keeps every key the accumulator already has. -/
theorem hasKey_applyTxStorage_mono (storage : List (String × String))
    (acc : List (String × String)) (k : String) (h : hasKey acc k = true) :
    hasKey (applyTxStorage acc storage) k = true := by
  induction storage generalizing acc with
  | nil => exact h
  | cons kv rest ih =>
    unfold applyTxStorage
    rw [List.foldl_cons]
    apply ih
    by_cases hm : matchesZeroRegex kv.1
    · simpa [hm] using h
    · simp only [hm, if_false]
      exact hasKey_objInsert_mono _ _ _ _ h

/-- The merge step records every storage key that does not match
`/0x0{64}/`. -/
theorem hasKey_applyTxStorage_of_mem (storage : List (String × String))
    (acc : List (String × String)) (k v : String) (hkv : (k, v) ∈ storage)
    (hk : matchesZeroRegex k = false) :
    hasKey (applyTxStorage acc storage) k = true := by
  induction storage generalizing acc with
  | nil => cases hkv
  | cons kv rest ih =>
    unfold applyTxStorage
    rw [List.foldl_cons]
    rcases List.mem_cons.mp hkv with heq | hmem
    · have : kv = (k, v) := heq.symm
      subst this
      simp only [hk, if_false]
      exact hasKey_applyTxStorage_mono rest _ k (hasKey_objInsert_self acc k v)
    · exact ih _ hmem

/-- The final merge records every non-`/0x0{64}/` key of every replayed
storage that reached `txStorages`. -/
theorem hasKey_mergeTxStorages_aux
    (stores : List (Option (List (String × String))))
    (acc : List (String × String)) (k : String)
    (h : hasKey acc k = true ∨
      ∃ storage v, some storage ∈ stores ∧ (k, v) ∈ storage ∧ matchesZeroRegex k = false) :
    hasKey (stores.foldl (fun a st =>
      match st with
      | none => a
      | some storage => applyTxStorage a storage) acc) k = true := by
  induction stores generalizing acc with
  | nil =>
    rcases h with h | ⟨_, _, hmem, _⟩
    · exact h
    · cases hmem
  | cons st rest ih =>
    rw [List.foldl_cons]
    rcases h with hacc | ⟨storage, v, hmem, hkv, hk⟩
    · apply ih
      left
      cases st with
      | none => exact hacc
      | some s => exact hasKey_applyTxStorage_mono s acc k hacc
    · rcases List.mem_cons.mp hmem with heq | hrest
      · subst heq
        apply ih
        left
        exact hasKey_applyTxStorage_of_mem storage acc k v hkv hk
      · apply ih
        right
        exact ⟨storage, v, hrest, hkv, hk⟩

/-- Elements already in the `txStorages` accumulator survive the replay
loop (for any batch size). -/
theorem mem_replayLoopAux_of_mem_acc
    (replay : String → Option (List (String × String))) (batch : Nat)
    (txs : List String) (proms acc : List (Option (List (String × String))))
    (x : Option (List (String × String))) (hx : x ∈ acc) :
    x ∈ replayLoopAux replay batch txs proms acc := by
  induction txs generalizing proms acc with
  | nil => exact hx
  | cons t rest ih =>
    unfold replayLoopAux
    by_cases ht : t = ""
    · simp only [ht, if_true]
      exact ih _ _ hx
    · simp only [ht, if_false]
      by_cases hb : batch ≤ (proms ++ [replay t]).length
      · simp only [hb, if_true]
        exact ih _ _ (List.mem_append.mpr (Or.inl hx))
      · simp only [hb, if_false]
        exact ih _ _ hx

/-- With batch size 1 every pending promise is flushed as soon as any
further non-empty transaction hash is popped. -/
theorem mem_replayLoopAux_one_of_mem_proms
    (replay : String → Option (List (String × String)))
    (txs : List String) (proms acc : List (Option (List (String × String))))
    (x : Option (List (String × String))) (hx : x ∈ proms)
    (hne : ∃ t ∈ txs, t ≠ "") :
    x ∈ replayLoopAux replay 1 txs proms acc := by
  induction txs generalizing proms acc with
  | nil =>
    rcases hne with ⟨t, ht, _⟩
    cases ht
  | cons hd rest ih =>
    unfold replayLoopAux
    by_cases hhd : hd = ""
    · simp only [hhd, if_true]
      rcases hne with ⟨t, ht, htne⟩
      rcases List.mem_cons.mp ht with rfl | hrest
      · exact absurd hhd htne
      · exact ih _ _ hx ⟨t, hrest, htne⟩
    · simp only [hhd, if_false]
      have hb : 1 ≤ (proms ++ [replay hd]).length := by
        simp
      simp only [hb, if_true]
      exact mem_replayLoopAux_of_mem_acc replay 1 rest _ _ x
        (List.mem_append.mpr (Or.inr (List.mem_append.mpr (Or.inl hx))))

/-- With batch size 1 the replay result of every non-empty transaction hash
in the list reaches `txStorages`. -/
theorem replay_mem_replayLoopAux_one
    (replay : String → Option (List (String × String)))
    (txs : List String) (proms acc : List (Option (List (String × String))))
    (t : String) (ht : t ∈ txs) (htne : t ≠ "") :
    replay t ∈ replayLoopAux replay 1 txs proms acc := by
  induction txs generalizing proms acc with
  | nil => cases ht
  | cons hd rest ih =>
    unfold replayLoopAux
    by_cases hhd : hd = ""
    · simp only [hhd, if_true]
      rcases List.mem_cons.mp ht with rfl | hrest
      · exact absurd hhd htne
      · exact ih _ _ hrest
    · simp only [hhd, if_false]
      have hb : 1 ≤ (proms ++ [replay hd]).length := by
        simp
      simp only [hb, if_true]
      rcases List.mem_cons.mp ht with rfl | hrest
      · exact mem_replayLoopAux_of_mem_acc replay 1 rest _ _ _
          (List.mem_append.mpr (Or.inr (List.mem_append.mpr
            (Or.inr (List.mem_singleton.mpr rfl)))))
      · exact ih _ _ hrest

/-! ## C1: srcTx storage collection -/

/-- C1, code bug: with the default batch size 50 and a single related
transaction whose replay reports slot `0x…01` set to `0x…02`, the collected
contract storage is empty — the replay-promise buffer of
`getContractStorageFromTxs` is only awaited once it reaches the batch size
and is never flushed after the loop (and, once reached, is never cleared, so
batches merge repeatedly), contradicting "exactly the keys touched …, each
replayed transaction contributing exactly once". -/
theorem c1_replay_buffer_never_flushed :
    replayOne "t1" =
      some [("0x0000000000000000000000000000000000000000000000000000000000000001",
             "0x0000000000000000000000000000000000000000000000000000000000000002")] ∧
    getContractStorageFromTxs replayOne 50 ["t1"] = [] := by
  exact ⟨rfl, rfl⟩

/-! ## C5: changed keys in the emitted srcTx result -/

/-- C5, counterexample: a transaction whose `stateDiff` touches only the
all-zero slot key `0x00…0` (setting it to a nonzero value), replayed with
batch size 1 so that the replay buffer is flushed: the emitted result is
empty — the key is filtered out by `!key.match(/0x0{64}/)`, so not every
changed storage key appears. -/
theorem c5_zero_slot_key_filtered_out :
    replayZeroSlot "t1" =
      some [("0x0000000000000000000000000000000000000000000000000000000000000000",
             "0x0000000000000000000000000000000000000000000000000000000000000005")] ∧
    getContractStorageFromTxs replayZeroSlot 1 ["t1"] = [] := by
  exact ⟨rfl, by decide⟩

/-- C5, amended: provided each replayed transaction's storage reaches the
final merge (batch size 1 makes every batch flush; the default 50 can drop
the final sub-batch, cf. C1), every storage key changed by a replayed
transaction appears in the emitted result — in particular keys whose
recorded value is the all-zero word are kept, since the merge filters on the
key, not the value — except keys matching `/0x0{64}/` (the all-zero slot
key), which are always dropped. -/
theorem c5_changed_key_appears (replay : String → Option (List (String × String)))
    (txs : List String) (t k v : String)
    (storage : List (String × String))
    (ht : t ∈ txs) (htne : t ≠ "") (hrep : replay t = some storage)
    (hkv : (k, v) ∈ storage) (hk : matchesZeroRegex k = false) :
    hasKey (getContractStorageFromTxs replay 1 txs) k = true := by
  unfold getContractStorageFromTxs mergeTxStorages
  apply hasKey_mergeTxStorages_aux
  right
  refine ⟨storage, v, ?_, hkv, hk⟩
  rw [← hrep]
  exact replay_mem_replayLoopAux_one replay txs.reverse [] [] t
    (List.mem_reverse.mpr ht) htne

/-- C5, witness: the amended theorem applied to the single transaction
`"t1"` whose replay sets slot `0x…01`; the key appears in the result. -/
theorem c5_changed_key_appears_witness :
    hasKey (getContractStorageFromTxs replayOne 1 ["t1"])
      "0x0000000000000000000000000000000000000000000000000000000000000001" = true :=
  c5_changed_key_appears replayOne ["t1"] "t1"
    "0x0000000000000000000000000000000000000000000000000000000000000001"
    "0x0000000000000000000000000000000000000000000000000000000000000002"
    [("0x0000000000000000000000000000000000000000000000000000000000000001",
      "0x0000000000000000000000000000000000000000000000000000000000000002")]
    (List.mem_singleton.mpr rfl) (by decide) rfl (List.mem_singleton.mpr rfl)
    (by decide)

/-! ## C2: RPC failure escalation -/

/-- The fan-out traversal fails whenever any element's call fails. -/
theorem mapME_error_of_mem {α β : Type} (f : α → Except String β) :
    ∀ (l : List α) (x : α) (e : String), x ∈ l → f x = .error e →
    ∃ e', mapME f l = .error e' := by
  intro l
  induction l with
  | nil =>
    intro x e hx _
    cases hx
  | cons a as ih =>
    intro x e hx hf
    rcases List.mem_cons.mp hx with rfl | hmem
    · exact ⟨e, by simp [mapME, hf]⟩
    · cases hfa : f a with
      | error e2 => exact ⟨e2, by simp [mapME, hfa]⟩
      | ok b =>
        rcases ih x e hmem hf with ⟨e', he'⟩
        exact ⟨e', by simp [mapME, hfa, he']⟩

/-- C2, counterexample: in `envReplayFail` the `trace_replayTransaction`
call for the related transaction `"t1"` fails, yet the srcTx collection
succeeds (`Except.ok`) over the partial results instead of escalating the
failure: `replayTransaction` catches the error and maps it to `undefined`. -/
theorem c2_replay_failure_not_fatal :
    envReplayFail.traceReplayTransaction "t1" = .error "rpc failure" ∧
    getContractStorageFromTxsE envReplayFail "0xAB" 50 1 1 = .ok [] := by
  exact ⟨rfl, rfl⟩

/-- C2, amended: failures of individual RPC calls in the block fetch,
transaction fetch and receipt fetch fan-outs abort the whole operation
(`process.exit(-1)` / unhandled rejection, modelled as the `Except` error),
but a failed `trace_replayTransaction` is caught, logged and skipped — the
transaction contributes no storage and the collection continues over the
partial results whenever the gathering stage succeeded. -/
theorem c2_rpc_failure_escalation :
    (∀ (env : SrcChainEnv) (earliest latest i : Nat) (e : String),
      earliest ≤ i → i ≤ latest → env.getBlock i = .error e →
      ∃ e', collectBlocks env earliest latest = .error e') ∧
    (∀ (env : SrcChainEnv) (hashes : List String) (h e : String),
      h ∈ hashes → env.getTransaction h = .error e →
      ∃ e', collectTxs env hashes = .error e') ∧
    (∀ (env : SrcChainEnv) (hashes : List String) (h e : String),
      h ∈ hashes → env.getTransactionReceipt h = .error e →
      ∃ e', collectReceipts env hashes = .error e') ∧
    (∀ (env : SrcChainEnv) (addr t e : String),
      env.traceReplayTransaction t = .error e → replayTransaction env addr t = none) ∧
    (∀ (env : SrcChainEnv) (addr : String) (batch latest earliest : Nat)
      (txs : List String),
      getTransactionsE env addr latest earliest = .ok txs →
      getContractStorageFromTxsE env addr batch latest earliest =
        .ok (getContractStorageFromTxs (replayTransaction env addr) batch txs)) := by
  refine ⟨?_, ?_, ?_, ?_, ?_⟩
  · intro env earliest latest i e hle hge hf
    have hi : i ∈ List.range' earliest (latest + 1 - earliest) := by
      rw [List.mem_range'_1]
      omega
    exact mapME_error_of_mem env.getBlock _ i e hi hf
  · intro env hashes h e hmem hf
    exact mapME_error_of_mem env.getTransaction hashes h e hmem hf
  · intro env hashes h e hmem hf
    exact mapME_error_of_mem env.getTransactionReceipt hashes h e hmem hf
  · intro env addr t e hf
    unfold replayTransaction
    rw [hf]
  · intro env addr batch latest earliest txs h
    unfold getContractStorageFromTxsE
    rw [h]
    rfl

/-- C2, witness: the amended theorem applied to the concrete oracles — a
failed block fetch, transaction fetch and receipt fetch each abort, the
failed replay of `"t1"` is mapped to `undefined`, and the collection over
`envReplayFail` succeeds on the gathered transaction list. -/
theorem c2_rpc_failure_escalation_witness :
    (∃ e', collectBlocks envBlockFail 1 1 = .error e') ∧
    (∃ e', collectTxs envBlockFail ["t9"] = .error e') ∧
    (∃ e', collectReceipts envBlockFail ["t9"] = .error e') ∧
    replayTransaction envReplayFail "0xAB" "t1" = none ∧
    getContractStorageFromTxsE envReplayFail "0xAB" 50 1 1 =
      .ok (getContractStorageFromTxs (replayTransaction envReplayFail "0xAB") 50 ["t1"]) := by
  refine ⟨?_, ?_, ?_, ?_, ?_⟩
  · exact c2_rpc_failure_escalation.1 envBlockFail 1 1 1 "getBlock boom"
      (Nat.le_refl 1) (Nat.le_refl 1) rfl
  · exact c2_rpc_failure_escalation.2.1 envBlockFail ["t9"] "t9" "no such tx"
      (List.mem_singleton.mpr rfl) rfl
  · exact c2_rpc_failure_escalation.2.2.1 envBlockFail ["t9"] "t9" "no receipt"
      (List.mem_singleton.mpr rfl) rfl
  · exact c2_rpc_failure_escalation.2.2.2.1 envReplayFail "0xAB" "t1" "rpc failure" rfl
  · exact c2_rpc_failure_escalation.2.2.2.2 envReplayFail "0xAB" 50 1 1 ["t1"] rfl

/-! ## C4: source-code assertion of `migrateSrcContract` -/

/-- C4, counterexample: in `migEnvLateCode` the source address has no code
at block 5 (`eth_getCode` returns `"0x"` there) but does have code at
`latest`; `migrateSrcContract(5)` nevertheless passes the assertion and
proceeds (returns success), because the source calls
`srcProvider.getCode(srcContractAddress)` without a block tag, so the check
is evaluated at the provider default `latest`, not at `srcBlock`. -/
theorem c4_code_check_ignores_srcBlock :
    migEnvLateCode.getCode (CodeBlockTag.number 5) = "0x" ∧
    migrateSrcContract true true migEnvLateCode (JsBlockTag.num 5) = true := by
  exact ⟨rfl, rfl⟩

/-- C4, amended: `migrateSrcContract` does begin with a non-empty-code
assertion and fails when the code it reads is empty (`length < 3`), but the
`eth_getCode` call carries no block tag and is therefore evaluated at the
provider's default `latest` tag: the result is determined by the code at
`latest` (and the outcome of the remaining steps) and is independent of the
`srcBlock` argument and of the code at any other block. -/
theorem c4_code_check_at_latest :
    (∀ (env : MigrateEnv) (b : JsBlockTag),
      (env.getCode CodeBlockTag.latest).length < 3 →
      migrateSrcContract true true env b = false) ∧
    (∀ (env env' : MigrateEnv) (b b' : JsBlockTag),
      env.getCode CodeBlockTag.latest = env'.getCode CodeBlockTag.latest →
      env.restOk = env'.restOk →
      migrateSrcContract true true env b = migrateSrcContract true true env' b') := by
  constructor
  · intro env b h
    simp [migrateSrcContract, h]
  · intro env env' b b' hcode hrest
    simp [migrateSrcContract, hcode, hrest]

/-- C4, witness: the amended theorem applied to the concrete environments —
with no code at `latest` the migration fails; and the `migEnvLateCode`
outcome is the same for `srcBlock` 5 and 7. -/
theorem c4_code_check_at_latest_witness :
    migrateSrcContract true true migEnvNoCode (JsBlockTag.num 5) = false ∧
    migrateSrcContract true true migEnvLateCode (JsBlockTag.num 5) =
      migrateSrcContract true true migEnvLateCode (JsBlockTag.num 7) := by
  constructor
  · exact c4_code_check_at_latest.1 migEnvNoCode (JsBlockTag.num 5) (by decide)
  · exact c4_code_check_at_latest.2 migEnvLateCode migEnvLateCode
      (JsBlockTag.num 5) (JsBlockTag.num 7) rfl rfl

/-! ## C7: `addStorage` chunking -/

/-- The chunking loop issues `ceil(n / 100)` transactions for `n` keys. -/
theorem initialStorageMigrationBatches_length :
    ∀ (n : Nat) (keys values : List String), keys.length ≤ n →
    (initialStorageMigrationBatches keys values).length = (keys.length + 99) / 100 := by
  intro n
  induction n with
  | zero =>
    intro keys values h
    have hnil : keys = [] := List.eq_nil_of_length_eq_zero (Nat.le_zero.mp h)
    subst hnil
    simp [initialStorageMigrationBatches]
  | succ n ih =>
    intro keys values h
    match keys with
    | [] => simp [initialStorageMigrationBatches]
    | k :: ks =>
      rw [initialStorageMigrationBatches]
      have hrec := ih ((k :: ks).drop KEY_VALUE_PAIR_PER_BATCH)
        (values.drop KEY_VALUE_PAIR_PER_BATCH)
        (by
          simp only [List.length_drop, List.length_cons, KEY_VALUE_PAIR_PER_BATCH]
          simp only [List.length_cons] at h
          omega)
      rw [List.length_cons, hrec]
      simp only [List.length_drop, List.length_cons, KEY_VALUE_PAIR_PER_BATCH]
      omega

/-- C7: `KEY_VALUE_PAIR_PER_BATCH` is 100, the initial storage migration
splits the `(keys, values)` pairs into chunks of the first 100 pairs each
(`splice(0, KEY_VALUE_PAIR_PER_BATCH)` while keys remain), and therefore
issues exactly `ceil(n / 100)` `addStorage` transactions for `n` slots —
for 250 slots, exactly 3.  (The batch flush bounding in-flight transactions
at the batch size is a concurrency property outside this embedding; it does
not change which transactions are issued.) -/
theorem c7_addStorage_chunking :
    KEY_VALUE_PAIR_PER_BATCH = 100 ∧
    (∀ (keys values : List String),
      (initialStorageMigrationBatches keys values).length = (keys.length + 99) / 100) ∧
    (initialStorageMigrationBatches (List.replicate 250 "k")
      (List.replicate 250 "v")).length = 3 := by
  refine ⟨rfl, ?_, ?_⟩
  · intro keys values
    exact initialStorageMigrationBatches_length keys.length keys values (Nat.le_refl _)
  · rw [initialStorageMigrationBatches_length 250 _ _ (by simp)]
    simp

/-! ## C8: empty-diff no-op -/

/-- C8: in the migrated state (`initialized` and `migrationState` set), for
every target block argument, relay configuration and `updateStorage`
outcome, `migrateChangesToProxy` with an empty changed-key list returns
success and emits no RPC interaction: no block or proof fetch, no
`relay.addBlock`, no `proxy.updateStorage` transaction. -/
theorem c8_empty_changes_noop (targetBlock : JsBlockTag) (hasRelay updOk : Bool) :
    migrateChangesToProxy true true hasRelay [] targetBlock updOk = (true, []) := by
  simp [migrateChangesToProxy]

/-! ## C9: source block beyond target block -/

/-- C9: for the `getProof` and `srcTx` strategies, when a relay and proxy
are attached (so the source block is rewritten to the synchronized block
number + 1) and the relay-synchronized block number exceeds the given
target block number, `getDiff` returns the empty diff and reports success.
For a truthy target block the guard in `getDiff` returns `StorageDiff([])`
directly; for the falsy target number 0 the strategy call is reached
instead, and the hypotheses `hProof` / `hTx` record the spec-modelled
behavior of the `DiffHandler` strategies (empty diff whenever the source
block exceeds the target block: `DiffHandler` is not under `src/`). -/
theorem c9_src_beyond_target_empty_diff (env : DiffEnv) (t : Nat)
    (srcBlockParam : JsBlockTag) (hasProxyAddr migState : Bool)
    (hProof : ∀ (tb : JsBlockTag) (sbn : Nat),
      toBlockNumber env.latestBlock tb < sbn →
      env.diffFromProof tb (JsBlockTag.num sbn) = [])
    (hTx : ∀ (tb : JsBlockTag) (sbn : Nat),
      toBlockNumber env.latestBlock tb < sbn →
      env.diffFromSrcTx tb (JsBlockTag.num sbn) = [])
    (hgt : t < env.synched) :
    getDiff true true hasProxyAddr migState env GetDiffMethod.getProofM
      srcBlockParam (JsBlockTag.num t) = some [] ∧
    getDiff true true hasProxyAddr migState env GetDiffMethod.srcTx
      srcBlockParam (JsBlockTag.num t) = some [] := by
  constructor
  · unfold getDiff
    by_cases ht : t = 0
    · subst ht
      simp only [JsBlockTag.truthy]
      norm_num
      exact hProof (JsBlockTag.num 0) (env.synched + 1) (by simp [toBlockNumber])
    · have htr : (JsBlockTag.num t).truthy = true := by
        simp [JsBlockTag.truthy, ht]
      simp only [htr, Bool.not_true, if_true, if_false, bigNumberFrom, toBlockNumber]
      norm_num
      intro hcon
      omega
  · unfold getDiff
    by_cases ht : t = 0
    · subst ht
      simp only [JsBlockTag.truthy]
      norm_num
      exact hTx (JsBlockTag.num 0) (env.synched + 1) (by simp [toBlockNumber])
    · have htr : (JsBlockTag.num t).truthy = true := by
        simp [JsBlockTag.truthy, ht]
      simp only [htr, Bool.not_true, if_true, if_false, bigNumberFrom, toBlockNumber]
      norm_num
      intro hcon
      omega

/-- C9, witness: the theorem applied to the concrete `diffEnvEmpty`
(synchronized block 5) and target block 1. -/
theorem c9_src_beyond_target_empty_diff_witness :
    getDiff true true true true diffEnvEmpty GetDiffMethod.getProofM
      (JsBlockTag.str "latest") (JsBlockTag.num 1) = some [] ∧
    getDiff true true true true diffEnvEmpty GetDiffMethod.srcTx
      (JsBlockTag.str "latest") (JsBlockTag.num 1) = some [] :=
  c9_src_beyond_target_empty_diff diffEnvEmpty 1 (JsBlockTag.str "latest") true true
    (fun _ _ _ => rfl) (fun _ _ _ => rfl) (by decide)

/-! ## C10: block-number getters outside the initialized/relayed state -/

/-- C10: when the engine is uninitialized or no relay contract is attached,
`getLatestBlockNumber` and `getCurrentBlockNumber` both return the sentinel
`BigNumber.from(-1)` without raising, and `getCurrentBlockNumber` leaves the
whole engine state — in particular the cached `srcBlock` — unchanged; the
cached `srcBlock` is rewritten to the relay-reported value only on the
success path. -/
theorem c10_sentinel_minus_one (s : EngineState) (relayLatest relayCurrent : Nat)
    (h : s.initialized = false ∨ s.hasRelay = false) :
    getLatestBlockNumber s relayLatest = -1 ∧
    getCurrentBlockNumber s relayCurrent = some (-1, s) := by
  rcases h with h | h
  · simp [getLatestBlockNumber, getCurrentBlockNumber, h]
  · cases hinit : s.initialized <;>
      simp [getLatestBlockNumber, getCurrentBlockNumber, h, hinit]

/-- C10, witness: the theorem applied to the uninitialized engine and to the
initialized engine without a relay. -/
theorem c10_sentinel_minus_one_witness :
    (getLatestBlockNumber engineUninit 50 = -1 ∧
      getCurrentBlockNumber engineUninit 60 = some (-1, engineUninit)) ∧
    (getLatestBlockNumber engineNoRelay 50 = -1 ∧
      getCurrentBlockNumber engineNoRelay 60 = some (-1, engineNoRelay)) :=
  ⟨c10_sentinel_minus_one engineUninit 50 60 (Or.inl rfl),
   c10_sentinel_minus_one engineNoRelay 50 60 (Or.inr rfl)⟩

/-! ## C6: proof verification in `ProxyContract.updateStorage` -/

/-- Any slot changed by a successful `setStorage` run is covered by a
storage proof entry that verified against the given storage hash. -/
theorem setStorage_changed_slot_verified (env : ProxyContract.ProxyEnv)
    (storageHash : Nat) :
    ∀ (proofs : List ProxyContract.StorageProofData) (st st2 : Nat → Nat),
    ProxyContract.setStorage env storageHash proofs st = some st2 →
    ∀ slot : Nat, st2 slot ≠ st slot →
    ∃ p ∈ proofs, p.key = slot ∧
      env.verifyStorageProof p.value (env.triePath p.key) p.proof storageHash = true := by
  intro proofs
  induction proofs with
  | nil =>
    intro st st2 h slot hne
    unfold ProxyContract.setStorage at h
    cases h
    exact absurd rfl hne
  | cons p rest ih =>
    intro st st2 h slot hne
    unfold ProxyContract.setStorage at h
    by_cases hv : env.verifyStorageProof p.value (env.triePath p.key) p.proof storageHash
    · rw [if_pos hv] at h
      by_cases hmid :
          st2 slot = ProxyContract.sstore st p.key (env.rlpToUint p.value) slot
      · have hkey : slot = p.key := by
          by_contra hk
          apply hne
          rw [hmid]
          unfold ProxyContract.sstore
          simp [hk]
        exact ⟨p, List.mem_cons_self p rest, hkey.symm, hv⟩
      · rcases ih _ _ h slot hmid with ⟨q, hq, hqs⟩
        exact ⟨q, List.mem_cons_of_mem p hq, hqs⟩
    · rw [if_neg hv] at h
      cases h

/-- `setStorage` reverts whenever any storage proof entry fails to
verify. -/
theorem setStorage_fails_of_bad_proof (env : ProxyContract.ProxyEnv)
    (storageHash : Nat) :
    ∀ (proofs : List ProxyContract.StorageProofData) (st : Nat → Nat),
    (∃ p ∈ proofs,
      env.verifyStorageProof p.value (env.triePath p.key) p.proof storageHash = false) →
    ProxyContract.setStorage env storageHash proofs st = none := by
  intro proofs
  induction proofs with
  | nil =>
    intro st h
    rcases h with ⟨_, hmem, _⟩
    cases hmem
  | cons p rest ih =>
    intro st h
    unfold ProxyContract.setStorage
    by_cases hv : env.verifyStorageProof p.value (env.triePath p.key) p.proof storageHash
    · rw [if_pos hv]
      rcases h with ⟨q, hq, hqf⟩
      rcases List.mem_cons.mp hq with rfl | hrest
      · rw [hv] at hqf
        cases hqf
      · exact ih _ ⟨q, hrest, hqf⟩
    · rw [if_neg hv]

/-- C6: `updateStorage(proof, blockHash)` writes a storage slot only when
the account proof of the submitted payload verifies against the relay-stored
state root for `blockHash` (so every accepted proof verifies against a
relay-stored state root) and the changed slot is covered by a storage proof
that verifies against the account's `storageHash`; and whenever the account
proof, or any storage proof entry, fails verification, the whole call
reverts (`none`) with no slot written. -/
theorem c6_updateStorage_requires_verification (env : ProxyContract.ProxyEnv)
    (st : Nat → Nat) (g : ProxyContract.GetProofData) (blockHash : Nat) :
    (∀ (st2 : Nat → Nat) (cb : Nat),
      ProxyContract.updateStorage env st g blockHash = some (st2, cb) →
      env.verifyProof g.account g.accountProof (env.encodedAddress env.source)
        (env.getStateRoot blockHash) = true ∧
      ∀ slot : Nat, st2 slot ≠ st slot →
        ∃ p ∈ g.storageProofs, p.key = slot ∧
          env.verifyStorageProof p.value (env.triePath p.key) p.proof
            (env.storageHashOf g.account) = true) ∧
    ((env.verifyProof g.account g.accountProof (env.encodedAddress env.source)
        (env.getStateRoot blockHash) = false ∨
      ∃ p ∈ g.storageProofs,
        env.verifyStorageProof p.value (env.triePath p.key) p.proof
          (env.storageHashOf g.account) = false) →
      ProxyContract.updateStorage env st g blockHash = none) := by
  constructor
  · intro st2 cb h
    unfold ProxyContract.updateStorage at h
    by_cases hacc : env.verifyProof g.account g.accountProof
        (env.encodedAddress env.source) (env.getStateRoot blockHash)
    · refine ⟨hacc, ?_⟩
      rw [if_pos hacc] at h
      cases hset : ProxyContract.setStorage env (env.storageHashOf g.account)
          g.storageProofs st with
      | none =>
        rw [hset] at h
        cases h
      | some st3 =>
        rw [hset] at h
        have hst : st3 = st2 := by
          cases h
          rfl
        subst hst
        exact setStorage_changed_slot_verified env _ g.storageProofs st st3 hset
    · rw [if_neg hacc] at h
      cases h
  · intro h
    unfold ProxyContract.updateStorage
    by_cases hacc : env.verifyProof g.account g.accountProof
        (env.encodedAddress env.source) (env.getStateRoot blockHash)
    · rw [if_pos hacc]
      rcases h with hfalse | hbad
      · rw [hacc] at hfalse
        cases hfalse
      · rw [setStorage_fails_of_bad_proof env _ g.storageProofs st hbad]
    · rw [if_neg hacc]

/-- C6, witness: with the all-accepting environment the call succeeds and
the theorem yields the verification facts at the written slot; with the
storage-proof-rejecting environment the call reverts. -/
theorem c6_updateStorage_requires_verification_witness :
    (proxyEnvAccept.verifyProof getProofOneSlot.account getProofOneSlot.accountProof
      (proxyEnvAccept.encodedAddress proxyEnvAccept.source)
      (proxyEnvAccept.getStateRoot 7) = true) ∧
    ProxyContract.updateStorage proxyEnvRejectStorage (fun _ => 0) getProofOneSlot 7 =
      none := by
  constructor
  · exact ((c6_updateStorage_requires_verification proxyEnvAccept (fun _ => 0)
      getProofOneSlot 7).1 (ProxyContract.sstore (fun _ => 0) 1 5) 7 rfl).1
  · exact (c6_updateStorage_requires_verification proxyEnvRejectStorage (fun _ => 0)
      getProofOneSlot 7).2
      (Or.inr ⟨{ key := 1, value := [5], proof := [9] },
        List.mem_singleton.mpr rfl, rfl⟩)

end SmartSync
